import Mathlib

/-!
Shallow embedding of the run-lifecycle polling loop and conversation
controller of `src/main.py` (an interactive chat client driving a hosted
assistant API), together with theorems settling the specification claims.

The remote service is modelled as an oracle environment: `retrieve` gives
the run record fetched at each poll iteration, and the other remote
operations are `Except`-valued fields (an `error` value models a raised
exception).  Wall-clock time advances one unit per `time.sleep(1)` call,
and network calls are instantaneous, so elapsed time equals the number of
completed sleep intervals.  Each embedded function returns, alongside its
result, a trace of the observable actions it performed (fetches,
tool-output submissions, sleeps, console prints), so that ordering and
"never does X" properties can be stated about the trace.
-/

/-- Run statuses, the fixed set used by `main.py`
(`queued`, `in_progress`, `requires_action`, `completed`, `failed`,
`cancelled`, `expired`). -/
inductive RunStatus
  | queued
  | in_progress
  | requires_action
  | completed
  | failed
  | cancelled
  | expired
  deriving DecidableEq, Repr

/-- The string form of a status, as interpolated into the f-string
`f"Run ended with status: {run.status}"`. -/
def statusStr : RunStatus → String
  | .queued => "queued"
  | .in_progress => "in_progress"
  | .requires_action => "requires_action"
  | .completed => "completed"
  | .failed => "failed"
  | .cancelled => "cancelled"
  | .expired => "expired"

/-- A pending tool call attached to a run in `requires_action` state. -/
structure ToolCall where
  id : String
  name : String
  args : String
  deriving DecidableEq, Repr

/-- A (call id, serialized output) pair, as submitted back to the run. -/
structure ToolOutput where
  tool_call_id : String
  output : String
  deriving DecidableEq, Repr

/-- A run record as fetched from the remote service. -/
structure Run where
  id : String
  status : RunStatus
  toolCalls : List ToolCall
  deriving DecidableEq, Repr

/-- Observable actions of `wait_for_completion`. -/
inductive Event
  | fetched (r : Run)
  | submitted (outs : List ToolOutput)
  | slept
  | printedEv (msg : String)
  deriving DecidableEq, Repr

/-- Oracle environment for the poller: `retrieve n` is the run record the
remote service returns at poll iteration `n` (equivalently, at elapsed
time `n`), and `handle_tool_calls` is the behaviour of the imported
`tools.handle_tool_calls` on a fetched run (`error` models a raised
exception). -/
structure Env where
  retrieve : Nat → Run
  handle_tool_calls : Run → Except String (List ToolOutput)

/-- The body of `wait_for_completion`'s `while` loop.  `elapsed` is the
current elapsed time (= the iteration index), and the second argument is
the remaining fuel `timeout - elapsed`; the loop guard
`time.time() - start_time < timeout` holds exactly while fuel is
positive.  Each iteration fetches the run and dispatches on its status:
`completed` returns the run; `requires_action` executes tool calls
(submitting the batch only when non-empty, aborting with failure if tool
execution raises); `failed`/`cancelled`/`expired` prints the status and
returns failure; otherwise it falls through.  Every non-returning
iteration ends with `time.sleep(1)` before re-polling. -/
def pollLoop (env : Env) : Nat → Nat → Option Run × List Event
  | _, 0 => (none, [.printedEv "Run timed out"])
  | elapsed, remaining + 1 =>
    let run := env.retrieve elapsed
    match run.status with
    | .completed => (some run, [.fetched run])
    | .requires_action =>
      match env.handle_tool_calls run with
      | .error e => (none, [.fetched run, .printedEv ("Error handling tool calls: " ++ e)])
      | .ok outs =>
        let next := pollLoop env (elapsed + 1) remaining
        if outs.isEmpty then
          (next.1, [Event.fetched run, Event.slept] ++ next.2)
        else
          (next.1, [Event.fetched run, Event.submitted outs, Event.slept] ++ next.2)
    | .failed | .cancelled | .expired =>
      (none, [.fetched run, .printedEv ("Run ended with status: " ++ statusStr run.status)])
    | _ =>
      let next := pollLoop env (elapsed + 1) remaining
      (next.1, [Event.fetched run, Event.slept] ++ next.2)

/-- `wait_for_completion(run_id, timeout)`: drive the run to a terminal
outcome under the timeout, returning the completed run record on success
and `none` (Python `None`) on failure, plus the trace of actions. -/
def wait_for_completion (env : Env) (timeout : Nat) : Option Run × List Event :=
  pollLoop env 0 timeout

/-- The default `timeout` parameter value of `wait_for_completion`. -/
def default_timeout : Nat := 300

/-- Iteration `i` neither returns nor aborts: the fetched status is
`queued`/`in_progress`, or `requires_action` with tool execution
succeeding. -/
def advancing (env : Env) (i : Nat) : Bool :=
  match (env.retrieve i).status with
  | .queued => true
  | .in_progress => true
  | .requires_action =>
    match env.handle_tool_calls (env.retrieve i) with
    | .ok _ => true
    | .error _ => false
  | _ => false

/-- Number of `time.sleep(1)` calls in a trace; each contributes one time
unit of elapsed wall time. -/
def countSleeps : List Event → Nat
  | [] => 0
  | .slept :: rest => countSleeps rest + 1
  | _ :: rest => countSleeps rest

namespace Tools

/-- Modelled from the spec: the `tools` package (the Tool Registry) is not
part of `src/`, so its dispatch table is modelled from §4.2 of the spec: a
mapping from tool name to a handler satisfying an
"execute(arguments) leading to output or error" contract. -/
structure ToolRegistry where
  handlers : List (String × (String → Except String String))

/-- Modelled from the spec: look up the handler registered under a tool
name; an unregistered name is an explicit error at call time. -/
def lookup_handler (reg : ToolRegistry) (name : String) :
    Option (String → Except String String) :=
  match reg.handlers.find? (fun p => p.1 == name) with
  | some p => some p.2
  | none => none

/-- Modelled from the spec: execute a list of pending tool calls in order,
dispatching each on its tool name; a tool whose name is unregistered, or
whose handler raises, propagates as an error. -/
def run_tool_calls (reg : ToolRegistry) : List ToolCall → Except String (List ToolOutput)
  | [] => .ok []
  | tc :: rest =>
    match lookup_handler reg tc.name with
    | none => .error ("Unknown tool: " ++ tc.name)
    | some h =>
      match h tc.args with
      | .error e => .error e
      | .ok out =>
        match run_tool_calls reg rest with
        | .error e => .error e
        | .ok outs => .ok (⟨tc.id, out⟩ :: outs)

/-- Modelled from the spec: `handle_tool_calls(run)` executes each pending
tool call of the run and returns the (call id, serialized output) pairs in
the same order as the input calls. -/
def handle_tool_calls (reg : ToolRegistry) (run : Run) : Except String (List ToolOutput) :=
  run_tool_calls reg run.toolCalls

end Tools

/-- A message in the thread, as returned by `messages.list`; `text`
abbreviates `message.content[0].text.value`. -/
structure Message where
  role : String
  text : String
  deriving DecidableEq, Repr

/-- Observable actions of the conversation controller
(`process_user_input`, `cancel_active_runs`, `reset_thread`,
`create_new_thread`). -/
inductive CAction
  | cancelledRun (id : String)
  | postedMessage (content : String)
  | createdRun (id : String)
  | displayed (text : String)
  | clearedThreadId
  | createdThread (id : String)
  | savedThreadId (id : String)
  | printedMsg (s : String)
  deriving DecidableEq, Repr

/-- Oracle environment for one conversational turn: each remote operation
on the current thread is a value of this structure, with `error` modelling
a raised exception.  `threads_create` is the identifier the remote service
hands back for a freshly created thread (thread creation is assumed not to
raise here; no claim depends on it raising). -/
structure SessionEnv where
  runs_list : Except String (List Run)
  cancel : String → Except String Unit
  messages_create : Except String Unit
  runs_create : Except String Run
  pollEnv : Env
  messages_list : Except String (List Message)
  threads_create : String

/-- A run counts as active for pre-turn cancellation when its status is
`queued` or `in_progress`. -/
def isActive (r : Run) : Bool :=
  match r.status with
  | .queued => true
  | .in_progress => true
  | _ => false

/-- The `for` loop inside `cancel_active_runs`: cancel each active run in
order; an exception from a cancel call escapes the loop to the enclosing
`except`, which prints it and returns. -/
def cancelLoop (env : SessionEnv) : List Run → List CAction
  | [] => []
  | r :: rest =>
    if isActive r then
      match env.cancel r.id with
      | .ok _ => .cancelledRun r.id :: cancelLoop env rest
      | .error e => [.printedMsg ("Error canceling runs: " ++ e)]
    else
      cancelLoop env rest

/-- `cancel_active_runs()`: list the runs on the current thread and cancel
every one in `queued`/`in_progress`; any exception (from listing or from a
cancel call) is caught, printed, and the function returns normally. -/
def cancel_active_runs (env : SessionEnv) : List CAction :=
  match env.runs_list with
  | .error e => [.printedMsg ("Error canceling runs: " ++ e)]
  | .ok runs => cancelLoop env runs

/-- `create_new_thread()`: create a thread remotely, store its id in
memory, persist it, and announce it.  Returns the new thread id and the
action trace. -/
def create_new_thread (env : SessionEnv) : String × List CAction :=
  (env.threads_create,
   [.createdThread env.threads_create, .savedThreadId env.threads_create,
    .printedMsg "New conversation thread created."])

/-- `reset_thread()`: clear the persisted thread id, then create and
persist a new one, then announce the reset. -/
def reset_thread (env : SessionEnv) : String × List CAction :=
  ((create_new_thread env).1,
   .clearedThreadId :: ((create_new_thread env).2 ++
     [.printedMsg "Conversation thread has been reset."]))

/-- The `except` block of `process_user_input`: notify the user and reset
to a fresh thread.  Returns the new thread id and the action trace. -/
def recover (env : SessionEnv) (e : String) : String × List CAction :=
  ((reset_thread env).1,
   .printedMsg ("An error occurred: " ++ e) ::
     .printedMsg "Starting a new conversation..." :: (reset_thread env).2)

/-- Python's `user_input.lower()`: ASCII case folding, which covers the
command comparisons the controller performs. -/
def str_lower (s : String) : String := ⟨s.data.map Char.toLower⟩

/-- `process_user_input(user_input)`: handle `exit`/`quit`/`reset`
commands, otherwise run one conversational turn: cancel active runs, post
the user message, start a run, poll it to completion, and display the
first assistant message.  Any exception during the turn is caught by the
`except` block (`recover`).  Returns (the Python return value, the thread
id after the turn, the action trace). -/
def process_user_input (env : SessionEnv) (thread_id : String) (user_input : String) :
    Bool × String × List CAction :=
  if str_lower user_input = "exit" ∨ str_lower user_input = "quit" then
    (false, thread_id, [.printedMsg "Goodbye!"])
  else if str_lower user_input = "reset" then
    (true, (reset_thread env).1, (reset_thread env).2)
  else
    let cancelEvs := cancel_active_runs env
    match env.messages_create with
    | .error e => (true, (recover env e).1, cancelEvs ++ (recover env e).2)
    | .ok _ =>
      let evs1 := cancelEvs ++ [CAction.postedMessage user_input]
      match env.runs_create with
      | .error e => (true, (recover env e).1, evs1 ++ (recover env e).2)
      | .ok run =>
        let evs2 := evs1 ++ [CAction.createdRun run.id]
        match (wait_for_completion env.pollEnv default_timeout).1 with
        | some _ =>
          match env.messages_list with
          | .error e => (true, (recover env e).1, evs2 ++ (recover env e).2)
          | .ok msgs =>
            match msgs.find? (fun m => m.role == "assistant") with
            | some m => (true, thread_id, evs2 ++ [CAction.displayed m.text])
            | none => (true, thread_id, evs2)
        | none => (true, thread_id, evs2)

/-! ### Step lemmas for the poll loop -/

lemma pollLoop_fuel_zero (env : Env) (elapsed : Nat) :
    pollLoop env elapsed 0 = (none, [.printedEv "Run timed out"]) := rfl

lemma pollLoop_completed (env : Env) (elapsed r : Nat)
    (h : (env.retrieve elapsed).status = .completed) :
    pollLoop env elapsed (r + 1) =
      (some (env.retrieve elapsed), [.fetched (env.retrieve elapsed)]) := by
  simp only [pollLoop]
  rw [h]

lemma pollLoop_terminal_failure (env : Env) (elapsed r : Nat)
    (h : (env.retrieve elapsed).status = .failed ∨ (env.retrieve elapsed).status = .cancelled ∨
      (env.retrieve elapsed).status = .expired) :
    pollLoop env elapsed (r + 1) =
      (none, [.fetched (env.retrieve elapsed),
        .printedEv ("Run ended with status: " ++ statusStr (env.retrieve elapsed).status)]) := by
  simp only [pollLoop]
  rcases h with h | h | h <;> rw [h]

lemma pollLoop_tool_error (env : Env) (elapsed r : Nat) (e : String)
    (hs : (env.retrieve elapsed).status = .requires_action)
    (he : env.handle_tool_calls (env.retrieve elapsed) = .error e) :
    pollLoop env elapsed (r + 1) =
      (none, [.fetched (env.retrieve elapsed),
        .printedEv ("Error handling tool calls: " ++ e)]) := by
  simp only [pollLoop]
  rw [hs, he]

lemma pollLoop_ra_submit (env : Env) (elapsed r : Nat) (outs : List ToolOutput)
    (hs : (env.retrieve elapsed).status = .requires_action)
    (ho : env.handle_tool_calls (env.retrieve elapsed) = .ok outs)
    (hne : outs ≠ []) :
    pollLoop env elapsed (r + 1) =
      ((pollLoop env (elapsed + 1) r).1,
       [.fetched (env.retrieve elapsed), .submitted outs, .slept] ++
         (pollLoop env (elapsed + 1) r).2) := by
  simp only [pollLoop]
  rw [hs, ho]
  simp [List.isEmpty_iff, hne]

lemma pollLoop_ra_noop (env : Env) (elapsed r : Nat)
    (hs : (env.retrieve elapsed).status = .requires_action)
    (ho : env.handle_tool_calls (env.retrieve elapsed) = .ok []) :
    pollLoop env elapsed (r + 1) =
      ((pollLoop env (elapsed + 1) r).1,
       [.fetched (env.retrieve elapsed), .slept] ++ (pollLoop env (elapsed + 1) r).2) := by
  simp only [pollLoop]
  rw [hs, ho]
  simp

lemma pollLoop_waiting (env : Env) (elapsed r : Nat)
    (h : (env.retrieve elapsed).status = .queued ∨ (env.retrieve elapsed).status = .in_progress) :
    pollLoop env elapsed (r + 1) =
      ((pollLoop env (elapsed + 1) r).1,
       [.fetched (env.retrieve elapsed), .slept] ++ (pollLoop env (elapsed + 1) r).2) := by
  simp only [pollLoop]
  rcases h with h | h <;> rw [h]

lemma pollLoop_advancing_fst (env : Env) (elapsed r : Nat)
    (h : advancing env elapsed = true) :
    (pollLoop env elapsed (r + 1)).1 = (pollLoop env (elapsed + 1) r).1 := by
  unfold advancing at h
  cases hs : (env.retrieve elapsed).status <;> rw [hs] at h
  case queued =>
    rw [pollLoop_waiting env elapsed r (Or.inl hs)]
  case in_progress =>
    rw [pollLoop_waiting env elapsed r (Or.inr hs)]
  case requires_action =>
    cases ho : env.handle_tool_calls (env.retrieve elapsed) with
    | error e => rw [ho] at h; exact absurd h (by simp)
    | ok outs =>
      cases houts : outs with
      | nil => rw [pollLoop_ra_noop env elapsed r hs (houts ▸ ho)]
      | cons a as =>
        rw [pollLoop_ra_submit env elapsed r outs hs ho (by simp [houts])]
  all_goals exact absurd h (by simp)

lemma countSleeps_append (a b : List Event) :
    countSleeps (a ++ b) = countSleeps a + countSleeps b := by
  induction a with
  | nil => simp [countSleeps]
  | cons x xs ih =>
    cases x <;> simp [countSleeps, ih, Nat.add_right_comm]

lemma pollLoop_never_terminal (env : Env) :
    ∀ r elapsed, (∀ i, i < r → advancing env (elapsed + i) = true) →
      (pollLoop env elapsed r).1 = none ∧
      countSleeps (pollLoop env elapsed r).2 = r ∧
      ∃ p, (pollLoop env elapsed r).2 = p ++ [.printedEv "Run timed out"] := by
  intro r
  induction r with
  | zero =>
    intro elapsed _
    refine ⟨rfl, rfl, [], rfl⟩
  | succ n ih =>
    intro elapsed h
    have h0 : advancing env elapsed = true := by
      have := h 0 (Nat.succ_pos n)
      simpa using this
    have hrest : ∀ i, i < n → advancing env (elapsed + 1 + i) = true := by
      intro i hi
      have := h (i + 1) (by omega)
      have harith : elapsed + (i + 1) = elapsed + 1 + i := by omega
      rwa [harith] at this
    obtain ⟨ih1, ih2, p, ih3⟩ := ih (elapsed + 1) hrest
    unfold advancing at h0
    cases hs : (env.retrieve elapsed).status <;> rw [hs] at h0
    case queued =>
      rw [pollLoop_waiting env elapsed n (Or.inl hs)]
      refine ⟨ih1, ?_, Event.fetched (env.retrieve elapsed) :: Event.slept :: p, ?_⟩
      · simp [countSleeps_append, ih2, countSleeps]
      · simp [ih3]
    case in_progress =>
      rw [pollLoop_waiting env elapsed n (Or.inr hs)]
      refine ⟨ih1, ?_, Event.fetched (env.retrieve elapsed) :: Event.slept :: p, ?_⟩
      · simp [countSleeps_append, ih2, countSleeps]
      · simp [ih3]
    case requires_action =>
      cases ho : env.handle_tool_calls (env.retrieve elapsed) with
      | error e => rw [ho] at h0; exact absurd h0 (by simp)
      | ok outs =>
        cases houts : outs with
        | nil =>
          rw [pollLoop_ra_noop env elapsed n hs (houts ▸ ho)]
          refine ⟨ih1, ?_, Event.fetched (env.retrieve elapsed) :: Event.slept :: p, ?_⟩
          · simp [countSleeps_append, ih2, countSleeps]
          · simp [ih3]
        | cons a as =>
          rw [pollLoop_ra_submit env elapsed n outs hs ho (by simp [houts])]
          refine ⟨ih1, ?_,
            Event.fetched (env.retrieve elapsed) :: Event.submitted outs :: Event.slept :: p, ?_⟩
          · simp [countSleeps_append, ih2, countSleeps]
          · simp [ih3]
    all_goals exact absurd h0 (by simp)

lemma pollLoop_advancing_step (env : Env) (elapsed r : Nat)
    (h : advancing env elapsed = true) :
    ∃ evs, pollLoop env elapsed (r + 1) =
      ((pollLoop env (elapsed + 1) r).1, evs ++ (pollLoop env (elapsed + 1) r).2) := by
  unfold advancing at h
  cases hs : (env.retrieve elapsed).status <;> rw [hs] at h
  case queued =>
    exact ⟨_, pollLoop_waiting env elapsed r (Or.inl hs)⟩
  case in_progress =>
    exact ⟨_, pollLoop_waiting env elapsed r (Or.inr hs)⟩
  case requires_action =>
    cases ho : env.handle_tool_calls (env.retrieve elapsed) with
    | error e => rw [ho] at h; exact absurd h (by simp)
    | ok outs =>
      cases houts : outs with
      | nil => exact ⟨_, pollLoop_ra_noop env elapsed r hs (houts ▸ ho)⟩
      | cons a as =>
        exact ⟨_, pollLoop_ra_submit env elapsed r outs hs ho (by simp [houts])⟩
  all_goals exact absurd h (by simp)

lemma pollLoop_reaches_completed (env : Env) :
    ∀ k elapsed r, k < r →
      (∀ i, i < k → advancing env (elapsed + i) = true) →
      (env.retrieve (elapsed + k)).status = .completed →
      ∃ p, pollLoop env elapsed r =
        (some (env.retrieve (elapsed + k)), p ++ [.fetched (env.retrieve (elapsed + k))]) := by
  intro k
  induction k with
  | zero =>
    intro elapsed r hr hadv hc
    obtain ⟨m, rfl⟩ : ∃ m, r = m + 1 := ⟨r - 1, by omega⟩
    refine ⟨[], ?_⟩
    rw [pollLoop_completed env elapsed m (by simpa using hc)]
    simp
  | succ n ih =>
    intro elapsed r hr hadv hc
    obtain ⟨m, rfl⟩ : ∃ m, r = m + 1 := ⟨r - 1, by omega⟩
    have h0 : advancing env elapsed = true := by
      have := hadv 0 (Nat.succ_pos n)
      simpa using this
    obtain ⟨evs, hstep⟩ := pollLoop_advancing_step env elapsed m h0
    have harith : elapsed + (n + 1) = elapsed + 1 + n := by omega
    rw [harith] at hc
    have hadv2 : ∀ i, i < n → advancing env (elapsed + 1 + i) = true := by
      intro i hi
      have := hadv (i + 1) (by omega)
      have harith2 : elapsed + (i + 1) = elapsed + 1 + i := by omega
      rwa [harith2] at this
    obtain ⟨p, hrec⟩ := ih (elapsed + 1) m (by omega) hadv2 hc
    refine ⟨evs ++ p, ?_⟩
    rw [hstep, hrec, harith]
    simp

lemma run_tool_calls_ids (reg : Tools.ToolRegistry) :
    ∀ tcs outs, Tools.run_tool_calls reg tcs = .ok outs →
      outs.map ToolOutput.tool_call_id = tcs.map ToolCall.id := by
  intro tcs
  induction tcs with
  | nil =>
    intro outs h
    simp only [Tools.run_tool_calls] at h
    cases h
    simp
  | cons tc rest ih =>
    intro outs h
    simp only [Tools.run_tool_calls] at h
    cases hl : Tools.lookup_handler reg tc.name with
    | none => simp only [hl] at h; cases h
    | some f =>
      simp only [hl] at h
      cases hf : f tc.args with
      | error e => simp only [hf] at h; cases h
      | ok out =>
        simp only [hf] at h
        cases hr : Tools.run_tool_calls reg rest with
        | error e => simp only [hr] at h; cases h
        | ok outs2 =>
          simp only [hr] at h
          cases h
          simp [ih outs2 hr]

lemma cancelLoop_all_ok (env : SessionEnv) :
    ∀ runs, (∀ r ∈ runs, isActive r = true → env.cancel r.id = .ok ()) →
      cancelLoop env runs = (runs.filter isActive).map (fun r => CAction.cancelledRun r.id) := by
  intro runs
  induction runs with
  | nil => intro _; simp [cancelLoop]
  | cons r rest ih =>
    intro h
    have hrest : ∀ x ∈ rest, isActive x = true → env.cancel x.id = .ok () := by
      intro x hx hax
      exact h x (by simp [hx]) hax
    cases ha : isActive r with
    | false => simp [cancelLoop, ha, ih hrest, List.filter_cons, ha]
    | true =>
      have hc := h r (by simp) ha
      simp [cancelLoop, ha, hc, ih hrest, List.filter_cons]

lemma process_user_input_returns_true (env : SessionEnv) (tid u : String)
    (h1 : str_lower u ≠ "exit") (h2 : str_lower u ≠ "quit") :
    (process_user_input env tid u).1 = true := by
  unfold process_user_input
  rw [if_neg (by simp [h1, h2])]
  by_cases h3 : str_lower u = "reset"
  · rw [if_pos h3]
  · rw [if_neg h3]
    cases hm : env.messages_create with
    | error e => simp [hm]
    | ok v =>
      cases hr : env.runs_create with
      | error e => simp [hm, hr]
      | ok run =>
        cases hp : (wait_for_completion env.pollEnv default_timeout).1 with
        | none => simp [hm, hr, hp]
        | some r0 =>
          cases hl : env.messages_list with
          | error e => simp [hm, hr, hp, hl]
          | ok msgs =>
            cases hf : msgs.find? (fun m => m.role == "assistant") with
            | none => simp [hm, hr, hp, hl, hf]
            | some m => simp [hm, hr, hp, hl, hf]

/-! ### Concrete environments used by the witness theorems -/

/-- A run waiting in the remote queue. -/
def runQ : Run := ⟨"run_q", .queued, []⟩

/-- A completed run. -/
def runC : Run := ⟨"run_c", .completed, []⟩

/-- A failed run. -/
def runF : Run := ⟨"run_f", .failed, []⟩

/-- A pending tool call. -/
def tcallA : ToolCall := ⟨"call_1", "calc", "2+2"⟩

/-- A run demanding one tool call. -/
def runRA : Run := ⟨"run_ra", .requires_action, [tcallA]⟩

/-- Poller environment: one `requires_action` cycle, then `completed`. -/
def envA : Env :=
  ⟨fun n => if n = 0 then runRA else runC,
   fun r => .ok (r.toolCalls.map (fun tc => ⟨tc.id, "4"⟩))⟩

/-- Poller environment: the run stays `queued` forever. -/
def envQ : Env := ⟨fun _ => runQ, fun _ => .ok []⟩

/-- Poller environment: the run is `failed` at every fetch. -/
def envF : Env := ⟨fun _ => runF, fun _ => .ok []⟩

/-- Poller environment: `requires_action` and tool execution raises. -/
def envTE : Env := ⟨fun _ => runRA, fun _ => .error "tool blew up"⟩

/-- A registry with the single tool `calc`. -/
def regCalc : Tools.ToolRegistry := ⟨[("calc", fun _ => .ok "4")]⟩

/-- Poller environment whose tool handling is the modelled registry. -/
def envReg : Env := ⟨fun _ => runRA, Tools.handle_tool_calls regCalc⟩

/-- One assistant message. -/
def msgA : Message := ⟨"assistant", "The answer is 4."⟩

/-- Session environment where every remote call succeeds. -/
def senvA : SessionEnv :=
  ⟨.ok [runQ], fun _ => .ok (), .ok (), .ok runQ, ⟨fun _ => runC, fun _ => .ok []⟩,
   .ok [msgA], "thread_new"⟩

/-- Session environment where posting the user message raises. -/
def senvMsgErr : SessionEnv :=
  ⟨.ok [], fun _ => .ok (), .error "boom", .ok runQ, ⟨fun _ => runC, fun _ => .ok []⟩,
   .ok [msgA], "thread_new"⟩

/-- Session environment where listing the runs raises. -/
def senvListErr : SessionEnv :=
  ⟨.error "listfail", fun _ => .ok (), .ok (), .ok runQ, ⟨fun _ => runC, fun _ => .ok []⟩,
   .ok [msgA], "thread_new"⟩

/-! ### Claim theorems -/

/-- C1: for every run that reaches status `completed` at some poll
iteration `k` before the timeout elapses (every earlier iteration neither
returning nor aborting, however many of them were `requires_action`
cycles), `wait_for_completion` returns the fetched run record immediately
as success, and it returns success exactly once per invocation: the
result is that single run record and the trace ends at the successful
fetch. -/
theorem wait_for_completion_completed_success (env : Env) (k timeout : Nat)
    (hk : k < timeout)
    (hadv : ∀ i, i < k → advancing env i = true)
    (hc : (env.retrieve k).status = .completed) :
    (wait_for_completion env timeout).1 = some (env.retrieve k) ∧
    ∃ p, (wait_for_completion env timeout).2 = p ++ [.fetched (env.retrieve k)] := by
  unfold wait_for_completion
  obtain ⟨p, hp⟩ := pollLoop_reaches_completed env k 0 timeout hk
    (by intro i hi; simpa using hadv i hi) (by simpa using hc)
  simp only [Nat.zero_add] at hp
  exact ⟨by rw [hp], p, by rw [hp]⟩

/-- Witness for C1: one `requires_action` cycle, then `completed`, under
timeout 3. -/
theorem wait_for_completion_completed_success_witness :
    (1 < 3 ∧ (∀ i, i < 1 → advancing envA i = true) ∧
      (envA.retrieve 1).status = RunStatus.completed) ∧
    ((wait_for_completion envA 3).1 = some (envA.retrieve 1) ∧
      ∃ p, (wait_for_completion envA 3).2 = p ++ [.fetched (envA.retrieve 1)]) :=
  ⟨⟨by decide, by decide, by decide⟩,
   wait_for_completion_completed_success envA 1 3 (by decide) (by decide) (by decide)⟩

/-- C2: whenever the fetched status is `failed`, `cancelled`, or
`expired`, the poller reports the status and returns failure immediately:
the remaining trace is exactly the fetch and the report, so no tool
output is submitted and no further sleep is performed and there is no
retry; when the first fetch already has such a status, the whole of
`wait_for_completion` returns failure with that two-event trace. -/
theorem wait_for_completion_terminal_failure_immediate (env : Env) (elapsed r : Nat)
    (hf : (env.retrieve elapsed).status = .failed ∨
      (env.retrieve elapsed).status = .cancelled ∨
      (env.retrieve elapsed).status = .expired) :
    pollLoop env elapsed (r + 1) =
      (none, [.fetched (env.retrieve elapsed),
        .printedEv ("Run ended with status: " ++ statusStr (env.retrieve elapsed).status)]) ∧
    (∀ ev ∈ (pollLoop env elapsed (r + 1)).2,
      ev ≠ Event.slept ∧ ∀ outs, ev ≠ Event.submitted outs) ∧
    (elapsed = 0 → wait_for_completion env (r + 1) =
      (none, [.fetched (env.retrieve 0),
        .printedEv ("Run ended with status: " ++ statusStr (env.retrieve 0).status)])) := by
  have h1 := pollLoop_terminal_failure env elapsed r hf
  refine ⟨h1, ?_, ?_⟩
  · rw [h1]
    intro ev hev
    simp only [List.mem_cons, List.not_mem_nil, or_false] at hev
    rcases hev with rfl | rfl
    · exact ⟨by simp, fun outs => by simp⟩
    · exact ⟨by simp, fun outs => by simp⟩
  · intro h0
    subst h0
    exact h1

/-- Witness for C2: the run is `failed` at the very first fetch. -/
theorem wait_for_completion_terminal_failure_witness :
    (envF.retrieve 0).status = RunStatus.failed ∧
    wait_for_completion envF 3 =
      (none, [.fetched (envF.retrieve 0),
        .printedEv ("Run ended with status: " ++ statusStr (envF.retrieve 0).status)]) :=
  ⟨by decide,
   (wait_for_completion_terminal_failure_immediate envF 0 2 (Or.inl (by decide))).2.2 rfl⟩

/-- C3: if tool execution raises while handling a `requires_action`
status, the poller aborts the poll immediately and returns failure with
no retry — the remaining trace is the fetch and the error report, with
no submission and no further sleep — and the failure is fatal only to
that run: the poller returns `None` instead of propagating the
exception, and `process_user_input` still returns `True`, so the session
loop continues. -/
theorem wait_for_completion_tool_error_aborts (env : Env) (elapsed r : Nat) (e : String)
    (hs : (env.retrieve elapsed).status = .requires_action)
    (he : env.handle_tool_calls (env.retrieve elapsed) = .error e) :
    pollLoop env elapsed (r + 1) =
      (none, [.fetched (env.retrieve elapsed),
        .printedEv ("Error handling tool calls: " ++ e)]) ∧
    (∀ ev ∈ (pollLoop env elapsed (r + 1)).2,
      ev ≠ Event.slept ∧ ∀ outs, ev ≠ Event.submitted outs) ∧
    (∀ senv tid u, senv.pollEnv = env → str_lower u ≠ "exit" → str_lower u ≠ "quit" →
      (process_user_input senv tid u).1 = true) := by
  have h1 := pollLoop_tool_error env elapsed r e hs he
  refine ⟨h1, ?_, ?_⟩
  · rw [h1]
    intro ev hev
    simp only [List.mem_cons, List.not_mem_nil, or_false] at hev
    rcases hev with rfl | rfl
    · exact ⟨by simp, fun outs => by simp⟩
    · exact ⟨by simp, fun outs => by simp⟩
  · intro senv tid u _ h1u h2u
    exact process_user_input_returns_true senv tid u h1u h2u

/-- Witness for C3: tool execution raises on the first fetch. -/
theorem wait_for_completion_tool_error_aborts_witness :
    (envTE.retrieve 0).status = RunStatus.requires_action ∧
    envTE.handle_tool_calls (envTE.retrieve 0) = .error "tool blew up" ∧
    pollLoop envTE 0 (2 + 1) =
      (none, [.fetched (envTE.retrieve 0),
        .printedEv ("Error handling tool calls: " ++ "tool blew up")]) :=
  ⟨by decide, rfl,
   (wait_for_completion_tool_error_aborts envTE 0 2 "tool blew up" (by decide) rfl).1⟩

/-- C4: for every sequence of fetched statuses that never reaches a
terminal state, `wait_for_completion` terminates: the loop exits once
elapsed time reaches the timeout, a timeout is reported as the last
action, and failure is returned; the trace contains exactly `timeout`
one-unit sleeps, so elapsed wall time is at least the timeout (whose
default is 300 time units). -/
theorem wait_for_completion_timeout_failure (env : Env) (timeout : Nat)
    (h : ∀ i, i < timeout → advancing env i = true) :
    (wait_for_completion env timeout).1 = none ∧
    countSleeps (wait_for_completion env timeout).2 = timeout ∧
    (∃ p, (wait_for_completion env timeout).2 = p ++ [.printedEv "Run timed out"]) ∧
    default_timeout = 300 := by
  unfold wait_for_completion
  have := pollLoop_never_terminal env timeout 0 (by intro i hi; simpa using h i hi)
  exact ⟨this.1, this.2.1, this.2.2, rfl⟩

/-- Witness for C4: a run stuck in `queued`, with timeout 3. -/
theorem wait_for_completion_timeout_failure_witness :
    (∀ i, i < 3 → advancing envQ i = true) ∧
    ((wait_for_completion envQ 3).1 = none ∧
      countSleeps (wait_for_completion envQ 3).2 = 3 ∧
      (∃ p, (wait_for_completion envQ 3).2 = p ++ [.printedEv "Run timed out"]) ∧
      default_timeout = 300) :=
  ⟨by decide, wait_for_completion_timeout_failure envQ 3 (by decide)⟩

/-- C5 (spec-modelled: the `tools` package is not under `src/`): for a
`requires_action` status whose tool handling is the registry dispatch,
the poller submits exactly the (call id, output) pairs the registry
produced — as many pairs as there are pending tool calls, preserving the
call-id correspondence in order — as one batch in a single submission;
and if the registry produced no outputs at all, nothing is submitted and
the iteration is a no-op that continues polling. -/
theorem pollLoop_submits_registry_batch (reg : Tools.ToolRegistry) (env : Env)
    (elapsed r : Nat) (outs : List ToolOutput)
    (henv : env.handle_tool_calls = Tools.handle_tool_calls reg)
    (hs : (env.retrieve elapsed).status = .requires_action)
    (ho : Tools.handle_tool_calls reg (env.retrieve elapsed) = .ok outs) :
    outs.length = (env.retrieve elapsed).toolCalls.length ∧
    outs.map ToolOutput.tool_call_id = (env.retrieve elapsed).toolCalls.map ToolCall.id ∧
    (outs ≠ [] → pollLoop env elapsed (r + 1) =
      ((pollLoop env (elapsed + 1) r).1,
       [.fetched (env.retrieve elapsed), .submitted outs, .slept] ++
         (pollLoop env (elapsed + 1) r).2)) ∧
    (outs = [] → pollLoop env elapsed (r + 1) =
      ((pollLoop env (elapsed + 1) r).1,
       [.fetched (env.retrieve elapsed), .slept] ++ (pollLoop env (elapsed + 1) r).2)) := by
  have hids := run_tool_calls_ids reg (env.retrieve elapsed).toolCalls outs ho
  refine ⟨?_, hids, ?_, ?_⟩
  · have := congrArg List.length hids
    simpa using this
  · intro hne
    exact pollLoop_ra_submit env elapsed r outs hs (by rw [henv]; exact ho) hne
  · intro hnil
    subst hnil
    exact pollLoop_ra_noop env elapsed r hs (by rw [henv]; exact ho)

/-- Witness for C5: a single pending tool call answered by the `calc`
handler of the modelled registry. -/
theorem pollLoop_submits_registry_batch_witness :
    envReg.handle_tool_calls = Tools.handle_tool_calls regCalc ∧
    (envReg.retrieve 0).status = RunStatus.requires_action ∧
    Tools.handle_tool_calls regCalc (envReg.retrieve 0) = .ok [⟨"call_1", "4"⟩] ∧
    ([(⟨"call_1", "4"⟩ : ToolOutput)].length = (envReg.retrieve 0).toolCalls.length ∧
      pollLoop envReg 0 (1 + 1) =
        ((pollLoop envReg (0 + 1) 1).1,
         [.fetched (envReg.retrieve 0), .submitted [⟨"call_1", "4"⟩], .slept] ++
           (pollLoop envReg (0 + 1) 1).2)) := by
  refine ⟨rfl, by decide, rfl, ?_, ?_⟩
  · exact (pollLoop_submits_registry_batch regCalc envReg 0 1 [⟨"call_1", "4"⟩]
      rfl (by decide) rfl).1
  · exact (pollLoop_submits_registry_batch regCalc envReg 0 1 [⟨"call_1", "4"⟩]
      rfl (by decide) rfl).2.2.1 (by simp)

/-- C10: every iteration of the `wait_for_completion` loop that does not
return ends with the fixed one-unit sleep immediately before the next
status fetch — for `queued`/`in_progress`, for `requires_action` with
submitted outputs, and for `requires_action` when no outputs were
produced — so the sleep is not restricted to the `queued`/`in_progress`
branch. -/
theorem pollLoop_sleeps_before_repolling (env : Env) (elapsed r : Nat) :
    (((env.retrieve elapsed).status = .queued ∨
        (env.retrieve elapsed).status = .in_progress) →
      pollLoop env elapsed (r + 1) =
        ((pollLoop env (elapsed + 1) r).1,
         [.fetched (env.retrieve elapsed), .slept] ++ (pollLoop env (elapsed + 1) r).2)) ∧
    (∀ outs, (env.retrieve elapsed).status = .requires_action →
      env.handle_tool_calls (env.retrieve elapsed) = .ok outs → outs ≠ [] →
      pollLoop env elapsed (r + 1) =
        ((pollLoop env (elapsed + 1) r).1,
         [.fetched (env.retrieve elapsed), .submitted outs, .slept] ++
           (pollLoop env (elapsed + 1) r).2)) ∧
    ((env.retrieve elapsed).status = .requires_action →
      env.handle_tool_calls (env.retrieve elapsed) = .ok [] →
      pollLoop env elapsed (r + 1) =
        ((pollLoop env (elapsed + 1) r).1,
         [.fetched (env.retrieve elapsed), .slept] ++ (pollLoop env (elapsed + 1) r).2)) ∧
    wait_for_completion env (r + 1) = pollLoop env 0 (r + 1) :=
  ⟨fun h => pollLoop_waiting env elapsed r h,
   fun outs hs ho hne => pollLoop_ra_submit env elapsed r outs hs ho hne,
   fun hs ho => pollLoop_ra_noop env elapsed r hs ho,
   rfl⟩

/-- Witness for C10: a `queued` iteration sleeps before the next fetch. -/
theorem pollLoop_sleeps_before_repolling_witness :
    ((envQ.retrieve 0).status = RunStatus.queued ∨
      (envQ.retrieve 0).status = RunStatus.in_progress) ∧
    pollLoop envQ 0 (1 + 1) =
      ((pollLoop envQ (0 + 1) 1).1,
       [.fetched (envQ.retrieve 0), .slept] ++ (pollLoop envQ (0 + 1) 1).2) :=
  ⟨Or.inl (by decide), (pollLoop_sleeps_before_repolling envQ 0 1).1 (Or.inl (by decide))⟩

/-- C6: for every user turn that posts a message, the controller first
cancels every run on the thread whose status is `queued` or `in_progress`
(and only those, in listing order) before posting the message and
starting the new run: in the trace all cancellations precede the posted
message, which precedes the creation of the new run, so runs within a
thread are strictly sequential. -/
theorem process_user_input_cancels_before_posting (env : SessionEnv) (tid u : String)
    (runs : List Run) (run : Run)
    (h1 : str_lower u ≠ "exit") (h2 : str_lower u ≠ "quit") (h3 : str_lower u ≠ "reset")
    (hl : env.runs_list = .ok runs)
    (hc : ∀ r ∈ runs, isActive r = true → env.cancel r.id = .ok ())
    (hm : env.messages_create = .ok ())
    (hr : env.runs_create = .ok run) :
    ∃ rest, (process_user_input env tid u).2.2 =
      ((runs.filter isActive).map (fun r => CAction.cancelledRun r.id)) ++
        CAction.postedMessage u :: CAction.createdRun run.id :: rest := by
  unfold process_user_input
  rw [if_neg (by simp [h1, h2]), if_neg h3]
  simp only [cancel_active_runs, hl, cancelLoop_all_ok env runs hc, hm, hr]
  cases hp : (wait_for_completion env.pollEnv default_timeout).1 with
  | none => exact ⟨[], by simp⟩
  | some r0 =>
    cases hml : env.messages_list with
    | error e => exact ⟨(recover env e).2, by simp⟩
    | ok msgs =>
      cases hf : msgs.find? (fun m => m.role == "assistant") with
      | none => exact ⟨[], by simp [hf]⟩
      | some m => exact ⟨[CAction.displayed m.text], by simp [hf]⟩

/-- Witness for C6: one queued run is cancelled, then the message is
posted and a new run created. -/
theorem process_user_input_cancels_before_posting_witness :
    (str_lower "hi" ≠ "exit" ∧ str_lower "hi" ≠ "quit" ∧ str_lower "hi" ≠ "reset" ∧
      senvA.runs_list = .ok [runQ] ∧ senvA.messages_create = .ok () ∧
      senvA.runs_create = .ok runQ ∧
      (∀ r ∈ [runQ], isActive r = true → senvA.cancel r.id = .ok ())) ∧
    ∃ rest, (process_user_input senvA "t1" "hi").2.2 =
      (([runQ].filter isActive).map (fun r => CAction.cancelledRun r.id)) ++
        CAction.postedMessage "hi" :: CAction.createdRun runQ.id :: rest := by
  refine ⟨⟨by decide, by decide, by decide, rfl, rfl, rfl, fun r _ _ => rfl⟩, ?_⟩
  exact process_user_input_cancels_before_posting senvA "t1" "hi" [runQ] runQ
    (by decide) (by decide) (by decide) rfl (fun r _ _ => rfl) rfl rfl

/-- C7: every exception raised at the modelled raise points of a
conversational turn (posting the message, creating the run, listing the
messages) is caught by the controller, which notifies the user, abandons
the current thread, and transitions to a fresh thread before returning
control to the session loop: the return value is `True` (the loop keeps
running, no exception propagates), the resulting thread id is the one
from the recovery reset, and the trace ends with the recovery actions
(the two notifications, clearing the persisted id, creating and saving
the fresh thread). -/
theorem process_user_input_recovers_on_exception (env : SessionEnv) (tid u : String)
    (h1 : str_lower u ≠ "exit") (h2 : str_lower u ≠ "quit") (h3 : str_lower u ≠ "reset")
    (herr : (∃ e, env.messages_create = .error e) ∨
      (env.messages_create = .ok () ∧ ∃ e, env.runs_create = .error e) ∨
      (env.messages_create = .ok () ∧ (∃ run, env.runs_create = .ok run) ∧
        (∃ r0, (wait_for_completion env.pollEnv default_timeout).1 = some r0) ∧
        (∃ e, env.messages_list = .error e))) :
    (process_user_input env tid u).1 = true ∧
    (process_user_input env tid u).2.1 = (reset_thread env).1 ∧
    ∃ p e, (process_user_input env tid u).2.2 = p ++ (recover env e).2 := by
  unfold process_user_input
  rw [if_neg (by simp [h1, h2]), if_neg h3]
  rcases herr with ⟨e, hme⟩ | ⟨hm, e, hre⟩ | ⟨hm, ⟨run, hok⟩, ⟨r0, hp⟩, e, hml⟩
  · simp only [hme]
    exact ⟨trivial, rfl, cancel_active_runs env, e, rfl⟩
  · simp only [hm, hre]
    exact ⟨trivial, rfl, cancel_active_runs env ++ [CAction.postedMessage u], e, rfl⟩
  · simp only [hm, hok, hp, hml]
    exact ⟨trivial, rfl,
      (cancel_active_runs env ++ [CAction.postedMessage u]) ++ [CAction.createdRun run.id],
      e, rfl⟩

/-- Witness for C7: posting the user message raises. -/
theorem process_user_input_recovers_on_exception_witness :
    (str_lower "hi" ≠ "exit" ∧ str_lower "hi" ≠ "quit" ∧ str_lower "hi" ≠ "reset" ∧
      senvMsgErr.messages_create = .error "boom") ∧
    ((process_user_input senvMsgErr "t1" "hi").1 = true ∧
      (process_user_input senvMsgErr "t1" "hi").2.1 = (reset_thread senvMsgErr).1 ∧
      ∃ p e, (process_user_input senvMsgErr "t1" "hi").2.2 = p ++ (recover senvMsgErr e).2) :=
  ⟨⟨by decide, by decide, by decide, rfl⟩,
   process_user_input_recovers_on_exception senvMsgErr "t1" "hi"
     (by decide) (by decide) (by decide) (Or.inl ⟨"boom", rfl⟩)⟩

/-- C8: every invocation of the `reset` command runs `reset_thread`,
which clears the persisted thread identifier first and only then creates
and persists the new thread identifier; provided the remote service
hands back an identifier different from the prior one, the new
identifier is distinct from the prior one. -/
theorem reset_thread_clears_then_creates (env : SessionEnv) (old u : String)
    (hu : str_lower u = "reset") :
    (reset_thread env).2 =
      [.clearedThreadId, .createdThread env.threads_create,
       .savedThreadId env.threads_create,
       .printedMsg "New conversation thread created.",
       .printedMsg "Conversation thread has been reset."] ∧
    (reset_thread env).1 = env.threads_create ∧
    (env.threads_create ≠ old → (reset_thread env).1 ≠ old) ∧
    process_user_input env old u = (true, (reset_thread env).1, (reset_thread env).2) := by
  refine ⟨rfl, rfl, fun h => h, ?_⟩
  unfold process_user_input
  rw [if_neg (by rw [hu]; decide), if_pos hu]

/-- Witness for C8: the literal `reset` command with a distinct stored
identifier. -/
theorem reset_thread_clears_then_creates_witness :
    str_lower "reset" = "reset" ∧
    ((reset_thread senvA).2 =
      [.clearedThreadId, .createdThread senvA.threads_create,
       .savedThreadId senvA.threads_create,
       .printedMsg "New conversation thread created.",
       .printedMsg "Conversation thread has been reset."] ∧
     (reset_thread senvA).1 = senvA.threads_create ∧
     (senvA.threads_create ≠ "thread_old" → (reset_thread senvA).1 ≠ "thread_old") ∧
     process_user_input senvA "thread_old" "reset" =
       (true, (reset_thread senvA).1, (reset_thread senvA).2)) :=
  ⟨by decide, reset_thread_clears_then_creates senvA "thread_old" "reset" (by decide)⟩

/-- C9: `cancel_active_runs` never raises — a failure of the listing
call, or of a cancel call, is caught and printed and the function
returns normally — and regardless of what the cancellation step did, the
turn then proceeds to post the user message (and start the new run). -/
theorem cancel_active_runs_failure_is_caught (env : SessionEnv) (tid u e : String)
    (h1 : str_lower u ≠ "exit") (h2 : str_lower u ≠ "quit") (h3 : str_lower u ≠ "reset")
    (hm : env.messages_create = .ok ()) :
    (∃ rest, (process_user_input env tid u).2.2 =
      cancel_active_runs env ++ CAction.postedMessage u :: rest) ∧
    (env.runs_list = .error e →
      cancel_active_runs env = [.printedMsg ("Error canceling runs: " ++ e)]) ∧
    (∀ r rs, env.runs_list = .ok (r :: rs) → isActive r = true →
      env.cancel r.id = .error e →
      cancel_active_runs env = [.printedMsg ("Error canceling runs: " ++ e)]) := by
  refine ⟨?_, ?_, ?_⟩
  · unfold process_user_input
    rw [if_neg (by simp [h1, h2]), if_neg h3]
    simp only [hm]
    cases hr : env.runs_create with
    | error e2 => exact ⟨(recover env e2).2, by simp⟩
    | ok run =>
      cases hp : (wait_for_completion env.pollEnv default_timeout).1 with
      | none => exact ⟨[CAction.createdRun run.id], by simp⟩
      | some r0 =>
        cases hml : env.messages_list with
        | error e2 => exact ⟨CAction.createdRun run.id :: (recover env e2).2, by simp⟩
        | ok msgs =>
          cases hf : msgs.find? (fun m => m.role == "assistant") with
          | none => exact ⟨[CAction.createdRun run.id], by simp [hf]⟩
          | some m => exact ⟨[CAction.createdRun run.id, CAction.displayed m.text], by simp [hf]⟩
  · intro hl
    simp [cancel_active_runs, hl]
  · intro r rs hl ha hc
    simp [cancel_active_runs, hl, cancelLoop, ha, hc]

/-- Witness for C9: listing the runs raises, the turn still posts the
message. -/
theorem cancel_active_runs_failure_is_caught_witness :
    (str_lower "hi" ≠ "exit" ∧ str_lower "hi" ≠ "quit" ∧ str_lower "hi" ≠ "reset" ∧
      senvListErr.messages_create = .ok () ∧ senvListErr.runs_list = .error "listfail") ∧
    ((∃ rest, (process_user_input senvListErr "t1" "hi").2.2 =
        cancel_active_runs senvListErr ++ CAction.postedMessage "hi" :: rest) ∧
      cancel_active_runs senvListErr =
        [.printedMsg ("Error canceling runs: " ++ "listfail")]) := by
  refine ⟨⟨by decide, by decide, by decide, rfl, rfl⟩, ?_, ?_⟩
  · exact (cancel_active_runs_failure_is_caught senvListErr "t1" "hi" "listfail"
      (by decide) (by decide) (by decide) rfl).1
  · exact (cancel_active_runs_failure_is_caught senvListErr "t1" "hi" "listfail"
      (by decide) (by decide) (by decide) rfl).2.1 rfl
